import Mathlib

/-!
Shallow embedding of the request-execution core of the `node-superops`
TypeScript library: the cursor-pagination engine (`src/pagination.ts`),
the sliding-window rate limiter and the retry-with-backoff policy
(`src/rate-limiter.ts`).

Conventions of the embedding:
* JavaScript `number` timestamps and millisecond quantities are `Int`;
  counts are `Nat`; the float ratio arithmetic of the rate limiter is
  modelled over `ℚ` (exact arithmetic for the formulas the code computes).
* `Date.now()` is passed explicitly as a `now : Int` parameter; a single
  method call observes one fixed `now`, matching the synchronous bodies.
* The stateful async iterators are modelled as explicit step functions on
  a state record; each step additionally reports the list of fetcher
  calls it performed, so call counts and call arguments are observable.
* Fallible operations return `Except`; the retry loop reports the number
  of invocations of the operation and the backoff delays it would sleep
  (jitter, a uniform random number, is not part of the recorded delay).
-/

namespace SuperOps

/-! ## Pagination data model (src/types/common.ts) -/

/-- GraphQL connection page info (interface `PageInfo`). -/
structure PageInfo where
  hasNextPage : Bool
  hasPreviousPage : Bool
  startCursor : Option String
  endCursor : Option String
deriving Repr, DecidableEq

/-- GraphQL connection edge (interface `Edge<T>`). -/
structure Edge (T : Type) where
  node : T
  cursor : String
deriving Repr, DecidableEq

/-- GraphQL connection result (interface `Connection<T>`). -/
structure Connection (T : Type) where
  edges : List (Edge T)
  pageInfo : PageInfo
  totalCount : Option Nat
deriving Repr, DecidableEq

/-- The `{first, after}` argument object passed to a `PageFetcher`. -/
structure FetchParams where
  first : Int
  after : Option String
deriving Repr, DecidableEq

/-- `PageFetcher<T>`: fetches a single page of results.  The embedding is a
pure function of the call parameters; the surrounding step functions record
the calls actually made. -/
def PageFetcher (T : Type) : Type := FetchParams → Connection T

/-- Options for paginated iteration (interface `PaginationOptions`). -/
structure PaginationOptions where
  pageSize : Option Int := none
  maxItems : Option Nat := none

/-- Default page size for pagination (`DEFAULT_PAGE_SIZE`). -/
def DEFAULT_PAGE_SIZE : Int := 50

/-- Maximum page size allowed (`MAX_PAGE_SIZE`). -/
def MAX_PAGE_SIZE : Int := 100

/-- The page-size resolution both iterators perform at construction:
`Math.min(options.pageSize || DEFAULT_PAGE_SIZE, MAX_PAGE_SIZE)`.
JavaScript `||` takes the default when `pageSize` is absent or `0`
(zero is falsy); there is no lower clamp. -/
def resolvePageSize (pageSize : Option Int) : Int :=
  min (match pageSize with
       | none => DEFAULT_PAGE_SIZE
       | some ps => if ps = 0 then DEFAULT_PAGE_SIZE else ps)
    MAX_PAGE_SIZE

/-! ## Item-mode iterator (`createCursorPaginatedIterator`) -/

/-- The mutable closure state of `createCursorPaginatedIterator`:
`currentItems`, `currentIndex`, `totalReturned`, `hasMore`, `endCursor`. -/
structure CursorState (T : Type) where
  currentItems : List T
  currentIndex : Nat
  totalReturned : Nat
  hasMore : Bool
  endCursor : Option String
deriving Repr, DecidableEq

/-- Initial closure state: empty buffer, `hasMore = true`, no cursor. -/
def initCursorState (T : Type) : CursorState T :=
  ⟨[], 0, 0, true, none⟩

/-- Result of one `next()` call: an `IteratorResult` is either
`{done:false, value:x}` or `{done:true}`. -/
inductive StepRes (T : Type) where
  | yield (x : T)
  | done
deriving Repr, DecidableEq

/-- The `maxItems !== undefined && totalReturned >= maxItems` guard. -/
def maxItemsReached (maxItems : Option Nat) (totalReturned : Nat) : Bool :=
  match maxItems with
  | none => false
  | some m => decide (m ≤ totalReturned)

/-- One `next()` call of the item-mode iterator: its iterator result, the
closure state afterwards, and the fetcher calls it performed. -/
structure CursorStep (T : Type) where
  res : StepRes T
  state : CursorState T
  calls : List FetchParams
deriving Repr, DecidableEq

/-- `iterator.next()` of `createCursorPaginatedIterator`.  The source's
`while` loop performs at most one iteration per call: a fetched empty page
returns done inside the loop, and a fetched non-empty page resets
`currentIndex` to `0 < currentItems.length`, exiting the loop. -/
def cursorNext {T : Type} (f : PageFetcher T) (maxItems : Option Nat)
    (pageSize : Int) (s : CursorState T) : CursorStep T :=
  if maxItemsReached maxItems s.totalReturned then
    ⟨.done, s, []⟩
  else if s.currentItems.length ≤ s.currentIndex ∧ s.hasMore = true then
    let conn := f ⟨pageSize, s.endCursor⟩
    match conn.edges.map Edge.node with
    | [] =>
        ⟨.done,
          ⟨[], 0, s.totalReturned, conn.pageInfo.hasNextPage, conn.pageInfo.endCursor⟩,
          [⟨pageSize, s.endCursor⟩]⟩
    | x :: xs =>
        ⟨.yield x,
          ⟨x :: xs, 1, s.totalReturned + 1, conn.pageInfo.hasNextPage, conn.pageInfo.endCursor⟩,
          [⟨pageSize, s.endCursor⟩]⟩
  else
    match s.currentItems[s.currentIndex]? with
    | none => ⟨.done, s, []⟩
    | some x =>
        ⟨.yield x,
          { s with currentIndex := s.currentIndex + 1, totalReturned := s.totalReturned + 1 },
          []⟩

/-- Outcome of driving an iterator: the items yielded, the fetcher calls
made, and whether a done result was reached within the fuel. -/
structure RunResult (T : Type) where
  items : List T
  calls : List FetchParams
  finished : Bool
deriving Repr, DecidableEq

/-- Drive the item-mode iterator for at most `fuel` calls to `next()`
(the `for await` / `toArray` consumption loop, which stops at done). -/
def runCursor {T : Type} (f : PageFetcher T) (maxItems : Option Nat)
    (pageSize : Int) : Nat → CursorState T → RunResult T
  | 0, _ => ⟨[], [], false⟩
  | fuel + 1, s =>
    let step := cursorNext f maxItems pageSize s
    match step.res with
    | .done => ⟨[], step.calls, true⟩
    | .yield x =>
      let rest := runCursor f maxItems pageSize fuel step.state
      ⟨x :: rest.items, step.calls ++ rest.calls, rest.finished⟩

/-! ## Page-mode iterator (`createPageIterator`) -/

/-- The mutable closure state of `createPageIterator`. -/
structure PageState where
  hasMore : Bool
  endCursor : Option String
deriving Repr, DecidableEq

/-- Initial page-mode state. -/
def initPageState : PageState := ⟨true, none⟩

/-- One `next()` call of the page-mode iterator. -/
structure PageModeStep (T : Type) where
  res : StepRes (Connection T)
  state : PageState
  calls : List FetchParams
deriving Repr, DecidableEq

/-- `iterator.next()` of `createPageIterator`. -/
def pageNext {T : Type} (f : PageFetcher T) (pageSize : Int)
    (s : PageState) : PageModeStep T :=
  if s.hasMore = false then
    ⟨.done, s, []⟩
  else
    let conn := f ⟨pageSize, s.endCursor⟩
    if conn.edges.isEmpty then
      ⟨.done, ⟨conn.pageInfo.hasNextPage, conn.pageInfo.endCursor⟩, [⟨pageSize, s.endCursor⟩]⟩
    else
      ⟨.yield conn, ⟨conn.pageInfo.hasNextPage, conn.pageInfo.endCursor⟩,
        [⟨pageSize, s.endCursor⟩]⟩

/-- Drive the page-mode iterator for at most `fuel` calls to `next()`. -/
def runPage {T : Type} (f : PageFetcher T) (pageSize : Int) :
    Nat → PageState → RunResult (Connection T)
  | 0, _ => ⟨[], [], false⟩
  | fuel + 1, s =>
    let step := pageNext f pageSize s
    match step.res with
    | .done => ⟨[], step.calls, true⟩
    | .yield x =>
      let rest := runPage f pageSize fuel step.state
      ⟨x :: rest.items, step.calls ++ rest.calls, rest.finished⟩

/-! ## Rate limiter (src/rate-limiter.ts, class `RateLimiter`) -/

/-- Rate limiting configuration (interface `RateLimitConfig`).  The float
`throttleThreshold` is modelled over `ℚ`. -/
structure RateLimitConfig where
  enabled : Bool
  maxRequests : Nat
  windowMs : Nat
  throttleThreshold : ℚ
  retryAfterMs : Nat
  maxRetries : Nat

/-- `DEFAULT_RATE_LIMIT_CONFIG` (800 requests / minute, 0.8 threshold). -/
def DEFAULT_RATE_LIMIT_CONFIG : RateLimitConfig :=
  ⟨true, 800, 60000, 4/5, 5000, 3⟩

/-- `pruneOldRequests`: shift entries while the head is older than
`now - windowMs` — exactly `dropWhile (· < cutoff)`, since the `while`
loop only ever inspects the head of the array. -/
def pruneOldRequests (cfg : RateLimitConfig) (requests : List Int) (now : Int) : List Int :=
  requests.dropWhile (fun t => decide (t < now - (cfg.windowMs : Int)))

/-- `get currentCount`: prune, then the number of stored timestamps. -/
def currentCount (cfg : RateLimitConfig) (requests : List Int) (now : Int) : Nat :=
  (pruneOldRequests cfg requests now).length

/-- `get remaining`: `Math.max(0, maxRequests - currentCount)`. -/
def remaining (cfg : RateLimitConfig) (requests : List Int) (now : Int) : Int :=
  max 0 ((cfg.maxRequests : Int) - (currentCount cfg requests now : Int))

/-- The ratio `currentCount / maxRequests` used by the limiter. -/
def usedRatio (cfg : RateLimitConfig) (requests : List Int) (now : Int) : ℚ :=
  (currentCount cfg requests now : ℚ) / (cfg.maxRequests : ℚ)

/-- `get isThrottling`: enabled and `ratio ≥ throttleThreshold`. -/
def isThrottling (cfg : RateLimitConfig) (requests : List Int) (now : Int) : Bool :=
  cfg.enabled && decide (cfg.throttleThreshold ≤ usedRatio cfg requests now)

/-- `get isLimited`: enabled and `currentCount ≥ maxRequests`. -/
def isLimited (cfg : RateLimitConfig) (requests : List Int) (now : Int) : Bool :=
  cfg.enabled && decide (cfg.maxRequests ≤ currentCount cfg requests now)

/-- `recordRequest()`: no-op when disabled; otherwise prune, then push the
current timestamp. -/
def recordRequest (cfg : RateLimitConfig) (requests : List Int) (now : Int) : List Int :=
  if cfg.enabled then pruneOldRequests cfg requests now ++ [now] else requests

/-- Fold `recordRequest` over a sequence of call timestamps. -/
def recordAll (cfg : RateLimitConfig) (requests : List Int) (times : List Int) : List Int :=
  times.foldl (fun reqs t => recordRequest cfg reqs t) requests

/-- `getDelayMs()`: 0 when disabled or not throttling; when limited with a
non-empty window, time until the oldest request exits the window (floored
at 0); otherwise the linear throttle ramp
`floor(((usedRatio - threshold) / (1 - threshold)) * retryAfterMs)`. -/
def getDelayMs (cfg : RateLimitConfig) (requests : List Int) (now : Int) : Int :=
  if cfg.enabled = false then 0
  else if isThrottling cfg requests now = false then 0
  else if isLimited cfg requests now = true ∧ pruneOldRequests cfg requests now ≠ [] then
    match pruneOldRequests cfg requests now with
    | [] => 0
    | oldest :: _ => max 0 (oldest + (cfg.windowMs : Int) - now)
  else
    ⌊((usedRatio cfg requests now - cfg.throttleThreshold) /
        (1 - cfg.throttleThreshold)) * (cfg.retryAfterMs : ℚ)⌋

/-! ## Retry policy (src/rate-limiter.ts, `retryWithBackoff`) -/

/-- Retry configuration (interface `RetryConfig`), with the failure type
as a parameter so the `shouldRetry` predicate can be embedded. -/
structure RetryConfig (E : Type) where
  maxRetries : Nat
  baseDelayMs : Nat
  maxDelayMs : Option Nat := none
  shouldRetry : Option (E → Bool) := none

/-- `config.maxDelayMs || 60000`: `0` is falsy in JavaScript, so both an
absent and a zero `maxDelayMs` fall back to 60000. -/
def effectiveMaxDelay (maxDelayMs : Option Nat) : Nat :=
  match maxDelayMs with
  | none => 60000
  | some d => if d = 0 then 60000 else d

/-- The pre-jitter backoff delay for a given attempt index:
`Math.min(baseDelayMs * 2^attempt, maxDelayMs || 60000)`. -/
def backoffDelay (baseDelayMs : Nat) (maxDelayMs : Option Nat) (attempt : Nat) : Nat :=
  min (baseDelayMs * 2 ^ attempt) (effectiveMaxDelay maxDelayMs)

/-- The guard `config.shouldRetry && !config.shouldRetry(lastError)`:
true exactly when a predicate is present and rejects the failure. -/
def shouldRetryBlocks {E : Type} (sr : Option (E → Bool)) (e : E) : Bool :=
  match sr with
  | none => false
  | some p => !(p e)

/-- Outcome of `retryWithBackoff`: the propagated result, the number of
invocations of the operation, and the pre-jitter delays slept. -/
structure RetryResult (E A : Type) where
  result : Except E A
  attempts : Nat
  delays : List Nat
deriving Repr

/-- The retry loop body, at a given `attempt` index with
`remaining = maxRetries - attempt` retries left.  The operation is
modelled as a function of the attempt index so distinct invocations can
fail differently. -/
def retryAux {E A : Type} (fn : Nat → Except E A) (cfg : RetryConfig E)
    (attempt remaining : Nat) : RetryResult E A :=
  match fn attempt with
  | .ok a => ⟨.ok a, attempt + 1, []⟩
  | .error e =>
    if shouldRetryBlocks cfg.shouldRetry e then ⟨.error e, attempt + 1, []⟩
    else
      match remaining with
      | 0 => ⟨.error e, attempt + 1, []⟩
      | r + 1 =>
        let rest := retryAux fn cfg (attempt + 1) r
        ⟨rest.result, rest.attempts, backoffDelay cfg.baseDelayMs cfg.maxDelayMs attempt :: rest.delays⟩

/-- `retryWithBackoff(fn, config)`: attempts `0 .. maxRetries`. -/
def retryWithBackoff {E A : Type} (fn : Nat → Except E A) (cfg : RetryConfig E) :
    RetryResult E A :=
  retryAux fn cfg 0 cfg.maxRetries

/-! ## Example fetchers and operations used as concrete instances -/

/-- A fetcher serving two pages: `[1, 2]` with a next page, then `[3, 4]`. -/
def twoPageFetcher : PageFetcher Nat := fun p =>
  match p.after with
  | none => ⟨[⟨1, "e1"⟩, ⟨2, "e2"⟩], ⟨true, false, none, some "c1"⟩, none⟩
  | some _ => ⟨[⟨3, "e3"⟩, ⟨4, "e4"⟩], ⟨false, false, none, some "c2"⟩, none⟩

/-- A fetcher serving one three-item page with no next page. -/
def threeItemFetcher : PageFetcher Nat := fun _ =>
  ⟨[⟨10, "a"⟩, ⟨11, "b"⟩, ⟨12, "c"⟩], ⟨false, false, none, none⟩, none⟩

/-- A fetcher whose first page is empty but claims `hasNextPage = true`,
and whose subsequent pages are non-empty. -/
def emptyThenMoreFetcher : PageFetcher Nat := fun p =>
  match p.after with
  | none => ⟨[], ⟨true, false, none, some "c"⟩, none⟩
  | some _ => ⟨[⟨7, "x"⟩], ⟨false, false, none, none⟩, none⟩

/-- A fetcher that always returns an empty final page. -/
def emptyFetcher : PageFetcher Nat := fun _ =>
  ⟨[], ⟨false, false, none, none⟩, none⟩

/-! ## Helper lemmas on lists -/

theorem drop_cons_facts {α : Type} :
    ∀ (l : List α) (i : Nat) (x : α) (r : List α),
      l.drop i = x :: r → l[i]? = some x ∧ l.drop (i + 1) = r ∧ i < l.length := by
  intro l
  induction l with
  | nil => intro i x r h; simp at h
  | cons a as ih =>
    intro i x r h
    cases i with
    | zero =>
      simp at h
      simp [h.1, h.2]
    | succ j =>
      simp only [List.drop_succ_cons] at h
      obtain ⟨h1, h2, h3⟩ := ih j x r h
      refine ⟨by simpa using h1, by simpa using h2, by simp only [List.length_cons]; omega⟩

/-! ## Branch lemmas for `cursorNext` -/

theorem cursorNext_capped {T : Type} (f : PageFetcher T) (m : Nat) (ps : Int)
    (s : CursorState T) (h : m ≤ s.totalReturned) :
    cursorNext f (some m) ps s = ⟨.done, s, []⟩ := by
  simp [cursorNext, maxItemsReached, h]

theorem cursorNext_yield {T : Type} (f : PageFetcher T) (mi : Option Nat) (ps : Int)
    (s : CursorState T) (x : T)
    (hcap : maxItemsReached mi s.totalReturned = false)
    (hget : s.currentItems[s.currentIndex]? = some x) :
    cursorNext f mi ps s =
      ⟨.yield x,
        { s with currentIndex := s.currentIndex + 1, totalReturned := s.totalReturned + 1 },
        []⟩ := by
  have hlt : s.currentIndex < s.currentItems.length := by
    by_contra hc
    push_neg at hc
    rw [List.getElem?_eq_none hc] at hget
    exact Option.noConfusion hget
  have hnot : ¬(s.currentItems.length ≤ s.currentIndex ∧ s.hasMore = true) := by
    intro hc; omega
  simp [cursorNext, hcap, hnot, hget]

theorem cursorNext_fetch_nonempty {T : Type} (f : PageFetcher T) (mi : Option Nat)
    (ps : Int) (s : CursorState T) (conn : Connection T) (e : Edge T) (es : List (Edge T))
    (hcap : maxItemsReached mi s.totalReturned = false)
    (hex : s.currentItems.length ≤ s.currentIndex)
    (hm : s.hasMore = true)
    (hconn : f ⟨ps, s.endCursor⟩ = conn)
    (hedges : conn.edges = e :: es) :
    cursorNext f mi ps s =
      ⟨.yield e.node,
        ⟨(e :: es).map Edge.node, 1, s.totalReturned + 1,
          conn.pageInfo.hasNextPage, conn.pageInfo.endCursor⟩,
        [⟨ps, s.endCursor⟩]⟩ := by
  simp [cursorNext, hcap, hex, hm, hconn, hedges]

theorem cursorNext_fetch_empty {T : Type} (f : PageFetcher T) (mi : Option Nat)
    (ps : Int) (s : CursorState T) (conn : Connection T)
    (hcap : maxItemsReached mi s.totalReturned = false)
    (hex : s.currentItems.length ≤ s.currentIndex)
    (hm : s.hasMore = true)
    (hconn : f ⟨ps, s.endCursor⟩ = conn)
    (hedges : conn.edges = []) :
    cursorNext f mi ps s =
      ⟨.done,
        ⟨[], 0, s.totalReturned, conn.pageInfo.hasNextPage, conn.pageInfo.endCursor⟩,
        [⟨ps, s.endCursor⟩]⟩ := by
  simp [cursorNext, hcap, hex, hm, hconn, hedges]

theorem cursorNext_exhausted_noMore {T : Type} (f : PageFetcher T) (mi : Option Nat)
    (ps : Int) (s : CursorState T)
    (hcap : maxItemsReached mi s.totalReturned = false)
    (hex : s.currentItems.length ≤ s.currentIndex)
    (hm : s.hasMore = false) :
    cursorNext f mi ps s = ⟨.done, s, []⟩ := by
  have hnot : ¬(s.currentItems.length ≤ s.currentIndex ∧ s.hasMore = true) := by
    intro hc; rw [hm] at hc; exact Bool.noConfusion hc.2
  simp [cursorNext, hcap, hnot, List.getElem?_eq_none hex]

/-! ## Unfolding lemmas for `runCursor` -/

theorem runCursor_succ_done {T : Type} (f : PageFetcher T) (mi : Option Nat) (ps : Int)
    (fuel : Nat) (s s' : CursorState T) (cs : List FetchParams)
    (h : cursorNext f mi ps s = ⟨.done, s', cs⟩) :
    runCursor f mi ps (fuel + 1) s = ⟨[], cs, true⟩ := by
  simp [runCursor, h]

theorem runCursor_succ_yield {T : Type} (f : PageFetcher T) (mi : Option Nat) (ps : Int)
    (fuel : Nat) (s s' : CursorState T) (x : T) (cs : List FetchParams)
    (h : cursorNext f mi ps s = ⟨.yield x, s', cs⟩) :
    runCursor f mi ps (fuel + 1) s =
      ⟨x :: (runCursor f mi ps fuel s').items,
       cs ++ (runCursor f mi ps fuel s').calls,
       (runCursor f mi ps fuel s').finished⟩ := by
  simp [runCursor, h]

/-- Explicit-state form of `cursorNext_yield`. -/
theorem cursorNext_yield_mk {T : Type} (f : PageFetcher T) (mi : Option Nat) (ps : Int)
    (buf : List T) (i tot : Nat) (hm : Bool) (cur : Option String) (x : T)
    (hcap : maxItemsReached mi tot = false)
    (hget : buf[i]? = some x) :
    cursorNext f mi ps ⟨buf, i, tot, hm, cur⟩ =
      ⟨.yield x, ⟨buf, i + 1, tot + 1, hm, cur⟩, []⟩ :=
  cursorNext_yield f mi ps ⟨buf, i, tot, hm, cur⟩ x hcap hget

/-- Draining the `k` buffered items left in the current page yields them in
order without any fetcher call, then continues from the exhausted-buffer
state. -/
theorem runCursor_drain {T : Type} (f : PageFetcher T) (ps : Int) :
    ∀ (suffix buf : List T) (i tot : Nat) (hm : Bool) (cur : Option String) (fuel : Nat),
      buf.drop i = suffix → i ≤ buf.length →
      runCursor f none ps (suffix.length + fuel) ⟨buf, i, tot, hm, cur⟩ =
        ⟨suffix ++ (runCursor f none ps fuel ⟨buf, buf.length, tot + suffix.length, hm, cur⟩).items,
         (runCursor f none ps fuel ⟨buf, buf.length, tot + suffix.length, hm, cur⟩).calls,
         (runCursor f none ps fuel ⟨buf, buf.length, tot + suffix.length, hm, cur⟩).finished⟩ := by
  intro suffix
  induction suffix with
  | nil =>
    intro buf i tot hm cur fuel hdrop hle
    have hi : i = buf.length := by
      have hlen : buf.length ≤ i := by
        by_contra hc
        push_neg at hc
        have : buf.drop i ≠ [] := by
          intro hnil
          have := List.length_drop i buf ▸ congrArg List.length hnil
          simp at this
          omega
        exact this hdrop
      omega
    subst hi
    simp
  | cons x rest ih =>
    intro buf i tot hm cur fuel hdrop hle
    obtain ⟨hget, hdrop', hlt⟩ := drop_cons_facts buf i x rest hdrop
    have hstep := cursorNext_yield_mk f none ps buf i tot hm cur x rfl hget
    have hfuel : (x :: rest).length + fuel = (rest.length + fuel) + 1 := by
      simp only [List.length_cons]
      omega
    rw [hfuel, runCursor_succ_yield f none ps (rest.length + fuel) _ _ _ _ hstep]
    rw [ih buf (i + 1) (tot + 1) hm cur fuel hdrop' (by omega)]
    have he : tot + 1 + rest.length = tot + (x :: rest).length := by
      simp only [List.length_cons]
      omega
    simp [he]

/-- Explicit-state form of `cursorNext_fetch_nonempty`. -/
theorem cursorNext_fetch_nonempty_mk {T : Type} (f : PageFetcher T) (mi : Option Nat)
    (ps : Int) (buf : List T) (i tot : Nat) (cur : Option String)
    (conn : Connection T) (e : Edge T) (es : List (Edge T))
    (hcap : maxItemsReached mi tot = false)
    (hex : buf.length ≤ i)
    (hconn : f ⟨ps, cur⟩ = conn)
    (hedges : conn.edges = e :: es) :
    cursorNext f mi ps ⟨buf, i, tot, true, cur⟩ =
      ⟨.yield e.node,
        ⟨(e :: es).map Edge.node, 1, tot + 1,
          conn.pageInfo.hasNextPage, conn.pageInfo.endCursor⟩,
        [⟨ps, cur⟩]⟩ :=
  cursorNext_fetch_nonempty f mi ps ⟨buf, i, tot, true, cur⟩ conn e es hcap hex rfl hconn hedges

/-- Explicit-state form of `cursorNext_exhausted_noMore`. -/
theorem cursorNext_exhausted_noMore_mk {T : Type} (f : PageFetcher T) (mi : Option Nat)
    (ps : Int) (buf : List T) (i tot : Nat) (cur : Option String)
    (hcap : maxItemsReached mi tot = false)
    (hex : buf.length ≤ i) :
    cursorNext f mi ps ⟨buf, i, tot, false, cur⟩ = ⟨.done, ⟨buf, i, tot, false, cur⟩, []⟩ :=
  cursorNext_exhausted_noMore f mi ps ⟨buf, i, tot, false, cur⟩ hcap hex rfl

/-- C1: driving the item-mode iterator to exhaustion over a fetcher whose
first page is non-empty with `hasNextPage = true` and whose second page is
non-empty with `hasNextPage = false` yields exactly the items of page one
followed by page two, with exactly two fetcher calls: the first with
`after = none`, the second with `after` equal to the first page's
`endCursor`.  A single non-empty page with `hasNextPage = false` yields
exactly its items with exactly one fetcher call. -/
theorem cursor_iterator_page_sequencing {T : Type} (f : PageFetcher T) (ps : Int)
    (conn1 conn2 : Connection T) (e1 e2 : Edge T) (es1 es2 : List (Edge T)) :
    (f ⟨ps, none⟩ = conn1 → conn1.edges = e1 :: es1 → conn1.pageInfo.hasNextPage = true →
     f ⟨ps, conn1.pageInfo.endCursor⟩ = conn2 → conn2.edges = e2 :: es2 →
     conn2.pageInfo.hasNextPage = false →
     runCursor f none ps (conn1.edges.length + conn2.edges.length + 1) (initCursorState T) =
       ⟨conn1.edges.map Edge.node ++ conn2.edges.map Edge.node,
        [⟨ps, none⟩, ⟨ps, conn1.pageInfo.endCursor⟩], true⟩)
    ∧ (f ⟨ps, none⟩ = conn1 → conn1.edges = e1 :: es1 → conn1.pageInfo.hasNextPage = false →
       runCursor f none ps (conn1.edges.length + 1) (initCursorState T) =
         ⟨conn1.edges.map Edge.node, [⟨ps, none⟩], true⟩) := by
  constructor
  · intro hf1 he1 hn1 hf2 he2 hn2
    have hstep1 := cursorNext_fetch_nonempty_mk f none ps [] 0 0 none conn1 e1 es1
      rfl (Nat.le_refl 0) hf1 he1
    rw [hn1] at hstep1
    rw [show conn1.edges.length + conn2.edges.length + 1 =
          (es1.length + ((es2.length + (0 + 1)) + 1)) + 1 from by
        rw [he1, he2]; simp only [List.length_cons]; omega]
    rw [initCursorState,
      runCursor_succ_yield f none ps (es1.length + ((es2.length + (0 + 1)) + 1)) _ _ _ _ hstep1]
    have hd1 := runCursor_drain f ps (es1.map Edge.node) ((e1 :: es1).map Edge.node)
      1 (0 + 1) true conn1.pageInfo.endCursor ((es2.length + (0 + 1)) + 1)
      (by simp) (by simp)
    simp only [List.length_map, List.length_cons] at hd1
    rw [hd1]
    have hstep2 := cursorNext_fetch_nonempty_mk f none ps ((e1 :: es1).map Edge.node)
      (es1.length + 1) ((0 + 1) + es1.length) conn1.pageInfo.endCursor conn2 e2 es2
      rfl (by simp) hf2 he2
    rw [hn2] at hstep2
    rw [runCursor_succ_yield f none ps (es2.length + (0 + 1)) _ _ _ _ hstep2]
    have hd2 := runCursor_drain f ps (es2.map Edge.node) ((e2 :: es2).map Edge.node)
      1 (((0 + 1) + es1.length) + 1) false conn2.pageInfo.endCursor (0 + 1)
      (by simp) (by simp)
    simp only [List.length_map, List.length_cons] at hd2
    rw [hd2]
    have hstep3 := cursorNext_exhausted_noMore_mk f none ps ((e2 :: es2).map Edge.node)
      (es2.length + 1) ((((0 + 1) + es1.length) + 1) + es2.length) conn2.pageInfo.endCursor
      rfl (by simp)
    rw [runCursor_succ_done f none ps 0 _ _ _ hstep3]
    rw [he1, he2]
    simp
  · intro hf1 he1 hn1
    have hstep1 := cursorNext_fetch_nonempty_mk f none ps [] 0 0 none conn1 e1 es1
      rfl (Nat.le_refl 0) hf1 he1
    rw [hn1] at hstep1
    rw [show conn1.edges.length + 1 = (es1.length + (0 + 1)) + 1 from by
        rw [he1]; simp only [List.length_cons]]
    rw [initCursorState,
      runCursor_succ_yield f none ps (es1.length + (0 + 1)) _ _ _ _ hstep1]
    have hd1 := runCursor_drain f ps (es1.map Edge.node) ((e1 :: es1).map Edge.node)
      1 (0 + 1) false conn1.pageInfo.endCursor (0 + 1)
      (by simp) (by simp)
    simp only [List.length_map, List.length_cons] at hd1
    rw [hd1]
    have hstep2 := cursorNext_exhausted_noMore_mk f none ps ((e1 :: es1).map Edge.node)
      (es1.length + 1) ((0 + 1) + es1.length) conn1.pageInfo.endCursor
      rfl (by simp)
    rw [runCursor_succ_done f none ps 0 _ _ _ hstep2]
    rw [he1]
    simp

/-- Witness for C1 using the concrete two-page fetcher (pages `[1,2]` then
`[3,4]`) and a one-page fetcher (page `[10,11,12]`). -/
theorem cursor_iterator_page_sequencing_witness :
    runCursor twoPageFetcher none 50 5 (initCursorState Nat) =
      ⟨[1, 2, 3, 4], [⟨50, none⟩, ⟨50, some "c1"⟩], true⟩ ∧
    runCursor threeItemFetcher none 50 4 (initCursorState Nat) =
      ⟨[10, 11, 12], [⟨50, none⟩], true⟩ :=
  ⟨(cursor_iterator_page_sequencing twoPageFetcher 50 _ _ ⟨1, "e1"⟩ ⟨3, "e3"⟩
      [⟨2, "e2"⟩] [⟨4, "e4"⟩]).1 rfl rfl rfl rfl rfl rfl,
   (cursor_iterator_page_sequencing threeItemFetcher 50 _
      (threeItemFetcher ⟨50, none⟩) ⟨10, "a"⟩ ⟨10, "a"⟩
      [⟨11, "b"⟩, ⟨12, "c"⟩] []).2 rfl rfl rfl⟩

/-- C5: with a `maxItems` cap `m`, a `next()` call from a state that has
already yielded at least `m` items returns done immediately with no
fetcher call; any `next()` step preserves `totalReturned ≤ m`; and with
`maxItems = 2` against a single three-item page, exactly the first two
items are yielded with exactly one fetcher call. -/
theorem cursor_iterator_maxItems_cap {T : Type} (f : PageFetcher T) (ps : Int) (m : Nat) :
    (∀ s : CursorState T, m ≤ s.totalReturned →
      cursorNext f (some m) ps s = ⟨.done, s, []⟩)
    ∧ (∀ s : CursorState T, s.totalReturned ≤ m →
        (cursorNext f (some m) ps s).state.totalReturned ≤ m)
    ∧ (∀ (a b c : T) (ca cb cc : String) (pinfo : PageInfo) (tc : Option Nat),
        f ⟨ps, none⟩ = ⟨[⟨a, ca⟩, ⟨b, cb⟩, ⟨c, cc⟩], pinfo, tc⟩ →
        runCursor f (some 2) ps 3 (initCursorState T) = ⟨[a, b], [⟨ps, none⟩], true⟩) := by
  refine ⟨fun s h => cursorNext_capped f m ps s h, ?_, ?_⟩
  · intro s hs
    rcases Nat.lt_or_ge s.totalReturned m with hlt | hge
    · have hcap : maxItemsReached (some m) s.totalReturned = false := by
        simp only [maxItemsReached, decide_eq_false_iff_not]
        omega
      rw [cursorNext, if_neg (by simp [hcap])]
      split
      · dsimp only
        split
        · simpa using hs
        · simpa using hlt
      · split
        · simpa using hs
        · simpa using hlt
    · rw [cursorNext_capped f m ps s hge]
      exact hs
  · intro a b c ca cb cc pinfo tc hf
    simp [runCursor, cursorNext, maxItemsReached, initCursorState, hf]

/-- Witness for C5 on the concrete three-item fetcher with cap 2. -/
theorem cursor_iterator_maxItems_cap_witness :
    cursorNext threeItemFetcher (some 2) 50 ⟨[], 0, 5, true, none⟩ =
      ⟨.done, ⟨[], 0, 5, true, none⟩, []⟩ ∧
    (cursorNext threeItemFetcher (some 2) 50 ⟨[], 0, 1, true, none⟩).state.totalReturned ≤ 2 ∧
    runCursor threeItemFetcher (some 2) 50 3 (initCursorState Nat) =
      ⟨[10, 11], [⟨50, none⟩], true⟩ :=
  ⟨(cursor_iterator_maxItems_cap threeItemFetcher 50 2).1 ⟨[], 0, 5, true, none⟩ (by decide),
   (cursor_iterator_maxItems_cap threeItemFetcher 50 2).2.1 ⟨[], 0, 1, true, none⟩ (by decide),
   (cursor_iterator_maxItems_cap threeItemFetcher 50 2).2.2 10 11 12 "a" "b" "c"
     ⟨false, false, none, none⟩ none rfl⟩

/-- Counterexample to C4 as stated: over a fetcher whose first page is
empty but reports `hasNextPage = true`, the first `next()` returns done,
yet the second `next()` on the same iterator performs another fetcher
call and even yields an item, so a subsequent `next()` is neither done
nor fetch-free. -/
theorem cursor_empty_page_not_latched_counterexample :
    (cursorNext emptyThenMoreFetcher none 50 (initCursorState Nat)).res = .done ∧
    (cursorNext emptyThenMoreFetcher none 50
        (cursorNext emptyThenMoreFetcher none 50 (initCursorState Nat)).state).res =
      .yield 7 ∧
    (cursorNext emptyThenMoreFetcher none 50
        (cursorNext emptyThenMoreFetcher none 50 (initCursorState Nat)).state).calls =
      [⟨50, some "c"⟩] := by
  refine ⟨rfl, rfl, rfl⟩

/-- C4 (amended): in both modes a fetched empty page makes that `next()`
call return done, and once `hasMore` is false no fetcher call is ever made
again; an empty page with `hasNextPage = false` latches `hasMore` to
false, but an empty page with `hasNextPage = true` does not latch the
iterator — a subsequent raw `next()` call fetches again. -/
theorem cursor_empty_page_termination {T : Type} (f : PageFetcher T) (mi : Option Nat)
    (ps : Int) :
    (∀ (s : CursorState T) (conn : Connection T),
      maxItemsReached mi s.totalReturned = false →
      s.currentItems.length ≤ s.currentIndex → s.hasMore = true →
      f ⟨ps, s.endCursor⟩ = conn → conn.edges = [] →
      (cursorNext f mi ps s).res = .done)
    ∧ (∀ s : CursorState T, s.hasMore = false →
        (cursorNext f mi ps s).calls = [] ∧ (cursorNext f mi ps s).state.hasMore = false)
    ∧ (∀ (s : CursorState T) (conn : Connection T),
        maxItemsReached mi s.totalReturned = false →
        s.currentItems.length ≤ s.currentIndex → s.hasMore = true →
        f ⟨ps, s.endCursor⟩ = conn → conn.edges = [] → conn.pageInfo.hasNextPage = false →
        (cursorNext f mi ps s).state.hasMore = false)
    ∧ (∀ (s : CursorState T) (conn : Connection T),
        maxItemsReached mi s.totalReturned = false →
        s.currentItems.length ≤ s.currentIndex → s.hasMore = true →
        f ⟨ps, s.endCursor⟩ = conn → conn.edges = [] → conn.pageInfo.hasNextPage = true →
        (cursorNext f mi ps (cursorNext f mi ps s).state).calls =
          [⟨ps, conn.pageInfo.endCursor⟩])
    ∧ (∀ (s : PageState) (conn : Connection T),
        s.hasMore = true → f ⟨ps, s.endCursor⟩ = conn → conn.edges = [] →
        (pageNext f ps s).res = .done)
    ∧ (∀ s : PageState, s.hasMore = false → pageNext f ps s = ⟨.done, s, []⟩) := by
  refine ⟨?_, ?_, ?_, ?_, ?_, ?_⟩
  · intro s conn hcap hex hm hconn hedges
    rw [cursorNext_fetch_empty f mi ps s conn hcap hex hm hconn hedges]
  · intro s hm
    rw [cursorNext]
    split
    · exact ⟨rfl, hm⟩
    · rw [if_neg (by simp [hm])]
      split
      · exact ⟨rfl, hm⟩
      · exact ⟨rfl, hm⟩
  · intro s conn hcap hex hm hconn hedges hnext
    rw [cursorNext_fetch_empty f mi ps s conn hcap hex hm hconn hedges]
    exact hnext
  · intro s conn hcap hex hm hconn hedges hnext
    rw [cursorNext_fetch_empty f mi ps s conn hcap hex hm hconn hedges, hnext]
    rw [cursorNext, if_neg (by simp [hcap]), if_pos ⟨Nat.le_refl 0, rfl⟩]
    dsimp only
    split <;> rfl
  · intro s conn hm hconn hedges
    simp [pageNext, hm, hconn, hedges]
  · intro s hm
    simp [pageNext, hm]

/-- Witness for the amended C4 on concrete fetchers and states. -/
theorem cursor_empty_page_termination_witness :
    (cursorNext emptyFetcher none 50 (initCursorState Nat)).res = .done ∧
    ((cursorNext emptyFetcher none 50 ⟨[], 0, 0, false, none⟩).calls = [] ∧
      (cursorNext emptyFetcher none 50 ⟨[], 0, 0, false, none⟩).state.hasMore = false) ∧
    (cursorNext emptyFetcher none 50 (initCursorState Nat)).state.hasMore = false ∧
    (cursorNext emptyThenMoreFetcher none 50
        (cursorNext emptyThenMoreFetcher none 50 (initCursorState Nat)).state).calls =
      [⟨50, some "c"⟩] ∧
    (pageNext emptyFetcher 50 initPageState).res = .done ∧
    pageNext emptyFetcher 50 ⟨false, some "z"⟩ = ⟨.done, ⟨false, some "z"⟩, []⟩ :=
  ⟨(cursor_empty_page_termination emptyFetcher none 50).1 (initCursorState Nat)
      (emptyFetcher ⟨50, none⟩) rfl (Nat.le_refl 0) rfl rfl rfl,
   (cursor_empty_page_termination emptyFetcher none 50).2.1 ⟨[], 0, 0, false, none⟩ rfl,
   (cursor_empty_page_termination emptyFetcher none 50).2.2.1 (initCursorState Nat)
      (emptyFetcher ⟨50, none⟩) rfl (Nat.le_refl 0) rfl rfl rfl rfl,
   (cursor_empty_page_termination emptyThenMoreFetcher none 50).2.2.2.1 (initCursorState Nat)
      (emptyThenMoreFetcher ⟨50, none⟩) rfl (Nat.le_refl 0) rfl rfl rfl rfl,
   (cursor_empty_page_termination emptyFetcher none 50).2.2.2.2.1 initPageState
      (emptyFetcher ⟨50, none⟩) rfl rfl rfl,
   (cursor_empty_page_termination emptyFetcher none 50).2.2.2.2.2 ⟨false, some "z"⟩ rfl⟩

/-! ## Page-size propagation to fetcher calls -/

theorem cursorNext_calls_first {T : Type} (f : PageFetcher T) (mi : Option Nat)
    (ps : Int) (s : CursorState T) :
    ∀ c ∈ (cursorNext f mi ps s).calls, c.first = ps := by
  intro c hc
  rw [cursorNext] at hc
  split at hc
  · simp at hc
  · split at hc
    · dsimp only at hc
      split at hc
      · simp at hc
        rw [hc]
      · simp at hc
        rw [hc]
    · split at hc
      · simp at hc
      · simp at hc

theorem runCursor_calls_first {T : Type} (f : PageFetcher T) (mi : Option Nat) (ps : Int) :
    ∀ (fuel : Nat) (s : CursorState T), ∀ c ∈ (runCursor f mi ps fuel s).calls, c.first = ps := by
  intro fuel
  induction fuel with
  | zero =>
    intro s c hc
    simp [runCursor] at hc
  | succ n ih =>
    intro s c hc
    simp only [runCursor] at hc
    rcases hres : (cursorNext f mi ps s).res with x | _ <;> rw [hres] at hc <;> dsimp only at hc
    · rcases List.mem_append.mp hc with h | h
      · exact cursorNext_calls_first f mi ps s c h
      · exact ih _ c h
    · exact cursorNext_calls_first f mi ps s c hc

theorem pageNext_calls_first {T : Type} (f : PageFetcher T) (ps : Int) (s : PageState) :
    ∀ c ∈ (pageNext f ps s).calls, c.first = ps := by
  intro c hc
  rw [pageNext] at hc
  split at hc
  · simp at hc
  · dsimp only at hc
    split at hc
    · simp at hc
      rw [hc]
    · simp at hc
      rw [hc]

theorem runPage_calls_first {T : Type} (f : PageFetcher T) (ps : Int) :
    ∀ (fuel : Nat) (s : PageState), ∀ c ∈ (runPage f ps fuel s).calls, c.first = ps := by
  intro fuel
  induction fuel with
  | zero =>
    intro s c hc
    simp [runPage] at hc
  | succ n ih =>
    intro s c hc
    simp only [runPage] at hc
    rcases hres : (pageNext f ps s).res with x | _ <;> rw [hres] at hc <;> dsimp only at hc
    · rcases List.mem_append.mp hc with h | h
      · exact pageNext_calls_first f ps s c h
      · exact ih _ c h
    · exact pageNext_calls_first f ps s c hc

/-- C9: in both pagination modes every fetcher call passes
`first = min(pageSize, 100)` with `pageSize` defaulting to 50 when not
supplied; oversized values are silently capped, so `pageSize = 500`
yields `first = 100`. -/
theorem pagination_pageSize_clamp (T : Type) :
    (∀ (f : PageFetcher T) (opts : PaginationOptions) (fuel : Nat) (s : CursorState T),
      ∀ c ∈ (runCursor f opts.maxItems (resolvePageSize opts.pageSize) fuel s).calls,
        c.first = resolvePageSize opts.pageSize)
    ∧ (∀ (f : PageFetcher T) (opts : PaginationOptions) (fuel : Nat) (s : PageState),
      ∀ c ∈ (runPage f (resolvePageSize opts.pageSize) fuel s).calls,
        c.first = resolvePageSize opts.pageSize)
    ∧ resolvePageSize none = 50
    ∧ (∀ ps : Int, ps ≠ 0 → resolvePageSize (some ps) = min ps 100)
    ∧ resolvePageSize (some 500) = 100 := by
  refine ⟨?_, ?_, by decide, ?_, by decide⟩
  · intro f opts fuel s
    exact runCursor_calls_first f opts.maxItems (resolvePageSize opts.pageSize) fuel s
  · intro f opts fuel s
    exact runPage_calls_first f (resolvePageSize opts.pageSize) fuel s
  · intro ps h
    simp [resolvePageSize, DEFAULT_PAGE_SIZE, MAX_PAGE_SIZE, h]

/-- Witness for C9: `pageSize = 500` produces a call with `first = 100`,
and a nonzero supplied page size follows the `min` formula. -/
theorem pagination_pageSize_clamp_witness :
    (⟨100, none⟩ : FetchParams).first = resolvePageSize (some 500) ∧
    resolvePageSize (some 5) = min 5 100 :=
  ⟨(pagination_pageSize_clamp Nat).1 emptyFetcher ⟨some 500, none⟩ 1 (initCursorState Nat)
      ⟨100, none⟩ (by decide),
   (pagination_pageSize_clamp Nat).2.2.2.1 5 (by decide)⟩

/-- C10: `pageSize = 0` is treated exactly like omitting the option (every
fetch uses the default `first = 50`), while a negative `pageSize` passes
through unchanged — the clamp has no lower bound. -/
theorem pagination_pageSize_zero_and_negative (T : Type) :
    resolvePageSize (some 0) = resolvePageSize none
    ∧ resolvePageSize (some 0) = 50
    ∧ (∀ ps : Int, ps < 0 → resolvePageSize (some ps) = ps)
    ∧ (∀ (f : PageFetcher T) (mi : Option Nat) (fuel : Nat) (s : CursorState T),
        ∀ c ∈ (runCursor f mi (resolvePageSize (some 0)) fuel s).calls, c.first = 50)
    ∧ (∀ (f : PageFetcher T) (fuel : Nat) (s : PageState),
        ∀ c ∈ (runPage f (resolvePageSize (some 0)) fuel s).calls, c.first = 50) := by
  have h0 : resolvePageSize (some 0) = 50 := by decide
  refine ⟨by decide, h0, ?_, ?_, ?_⟩
  · intro ps h
    have h1 : ¬(ps = 0) := by omega
    simp only [resolvePageSize, h1, if_false, MAX_PAGE_SIZE]
    exact min_eq_left (by omega)
  · intro f mi fuel s
    rw [h0]
    exact runCursor_calls_first f mi 50 fuel s
  · intro f fuel s
    rw [h0]
    exact runPage_calls_first f 50 fuel s

/-- Witness for C10: `pageSize = -7` reaches the fetcher unchanged, and a
zero page size records calls with `first = 50`. -/
theorem pagination_pageSize_zero_and_negative_witness :
    resolvePageSize (some (-7)) = -7 ∧ (⟨50, none⟩ : FetchParams).first = 50 :=
  ⟨(pagination_pageSize_zero_and_negative Nat).2.2.1 (-7) (by decide),
   (pagination_pageSize_zero_and_negative Nat).2.2.2.1 emptyFetcher none 1
      (initCursorState Nat) ⟨50, none⟩ (by decide)⟩

/-! ## Claims about the retry policy -/

theorem retryAux_all_fail {E A : Type} (fn : Nat → Except E A) (cfg : RetryConfig E)
    (err : Nat → E)
    (hfail : ∀ i, fn i = .error (err i))
    (hretry : ∀ e, shouldRetryBlocks cfg.shouldRetry e = false) :
    ∀ (remaining attempt : Nat),
      (retryAux fn cfg attempt remaining).result = .error (err (attempt + remaining)) ∧
      (retryAux fn cfg attempt remaining).attempts = attempt + remaining + 1 := by
  intro remaining
  induction remaining with
  | zero =>
    intro attempt
    rw [retryAux, hfail attempt]
    simp [hretry]
  | succ r ih =>
    intro attempt
    have h := ih (attempt + 1)
    rw [retryAux, hfail attempt]
    simp only [hretry, Bool.false_eq_true, if_false]
    refine ⟨?_, ?_⟩
    · have he : attempt + (r + 1) = attempt + 1 + r := by omega
      rw [he]
      exact h.1
    · have he : attempt + (r + 1) + 1 = attempt + 1 + r + 1 := by omega
      rw [he]
      exact h.2

/-- C2: when the operation fails on every attempt and the `shouldRetry`
predicate never rejects (or is absent), `retryWithBackoff` invokes the
operation exactly `maxRetries + 1` times and the failure that propagates
is exactly the failure raised by the last invocation, unwrapped. -/
theorem retryWithBackoff_exhausts_with_last_error {E A : Type} (fn : Nat → Except E A)
    (cfg : RetryConfig E) (err : Nat → E)
    (hfail : ∀ i, fn i = .error (err i))
    (hretry : ∀ e, shouldRetryBlocks cfg.shouldRetry e = false) :
    (retryWithBackoff fn cfg).result = .error (err cfg.maxRetries) ∧
    (retryWithBackoff fn cfg).attempts = cfg.maxRetries + 1 := by
  have h := retryAux_all_fail fn cfg err hfail hretry cfg.maxRetries 0
  simpa [retryWithBackoff] using h

/-- Witness for C2: an operation that always fails with error `42` under
`maxRetries = 1` is invoked exactly twice and `42` itself propagates. -/
theorem retryWithBackoff_exhausts_with_last_error_witness :
    (retryWithBackoff (fun _ => (.error 42 : Except Nat Nat))
      ⟨1, 100, none, none⟩).result = .error 42 ∧
    (retryWithBackoff (fun _ => (.error 42 : Except Nat Nat))
      ⟨1, 100, none, none⟩).attempts = 2 :=
  retryWithBackoff_exhausts_with_last_error _ _ (fun _ => 42)
    (fun _ => rfl) (fun _ => rfl)

/-- C6: if the first invocation fails and a supplied `shouldRetry`
predicate rejects that failure, the operation is invoked exactly once, no
backoff delay is slept, and that same failure propagates. -/
theorem retryWithBackoff_predicate_rejects {E A : Type} (fn : Nat → Except E A)
    (cfg : RetryConfig E) (p : E → Bool) (e : E)
    (hp : cfg.shouldRetry = some p)
    (hfn : fn 0 = .error e)
    (hpe : p e = false) :
    retryWithBackoff fn cfg = ⟨.error e, 1, []⟩ := by
  simp [retryWithBackoff, retryAux, hfn, shouldRetryBlocks, hp, hpe]

/-- Witness for C6 at a concrete always-false predicate. -/
theorem retryWithBackoff_predicate_rejects_witness :
    retryWithBackoff (fun _ => (.error 5 : Except Nat Nat))
      ⟨3, 10, none, some (fun _ => false)⟩ = ⟨.error 5, 1, []⟩ :=
  retryWithBackoff_predicate_rejects _ _ (fun _ => false) 5 rfl rfl rfl

/-! ## Rate limiter: branch lemmas for `getDelayMs` -/

theorem getDelayMs_not_throttling (cfg : RateLimitConfig) (reqs : List Int) (now : Int)
    (hen : cfg.enabled = true)
    (h : usedRatio cfg reqs now < cfg.throttleThreshold) :
    getDelayMs cfg reqs now = 0 := by
  have hthrot : isThrottling cfg reqs now = false := by
    simp only [isThrottling, hen, Bool.true_and, decide_eq_false_iff_not]
    exact not_le.mpr h
  rw [getDelayMs, if_neg (by simp [hen]), if_pos hthrot]

theorem getDelayMs_throttle (cfg : RateLimitConfig) (reqs : List Int) (now : Int)
    (hen : cfg.enabled = true)
    (hthr : cfg.throttleThreshold ≤ usedRatio cfg reqs now)
    (hnl : currentCount cfg reqs now < cfg.maxRequests) :
    getDelayMs cfg reqs now =
      ⌊((usedRatio cfg reqs now - cfg.throttleThreshold) /
          (1 - cfg.throttleThreshold)) * (cfg.retryAfterMs : ℚ)⌋ := by
  have hthrot : isThrottling cfg reqs now = true := by
    simp [isThrottling, hen, hthr]
  have hlim : isLimited cfg reqs now = false := by
    simp only [isLimited, hen, Bool.true_and, decide_eq_false_iff_not]
    omega
  rw [getDelayMs, if_neg (by simp [hen]), if_neg (by simp [hthrot]),
    if_neg (by simp [hlim])]

theorem getDelayMs_limited (cfg : RateLimitConfig) (reqs : List Int) (now : Int)
    (oldest : Int) (rest : List Int)
    (hen : cfg.enabled = true) (hmax : 0 < cfg.maxRequests)
    (hth1 : cfg.throttleThreshold < 1)
    (hlim : cfg.maxRequests ≤ currentCount cfg reqs now)
    (hpr : pruneOldRequests cfg reqs now = oldest :: rest) :
    getDelayMs cfg reqs now = max 0 (oldest + (cfg.windowMs : Int) - now) := by
  have hratio : (1 : ℚ) ≤ usedRatio cfg reqs now := by
    rw [usedRatio, le_div_iff₀ (by exact_mod_cast hmax)]
    simpa using (Nat.cast_le.mpr hlim : (cfg.maxRequests : ℚ) ≤ currentCount cfg reqs now)
  have hthrot : isThrottling cfg reqs now = true := by
    simp only [isThrottling, hen, Bool.true_and, decide_eq_true_eq]
    exact le_trans (le_of_lt hth1) hratio
  have hlim' : isLimited cfg reqs now = true := by
    simp [isLimited, hen, hlim]
  rw [getDelayMs, if_neg (by simp [hen]), if_neg (by simp [hthrot]),
    if_pos ⟨hlim', by simp [hpr]⟩, hpr]

/-- C3: for an enabled limiter with sane configuration, `getDelayMs` is:
the time until the oldest recorded instant exits the window (floored at 0)
when limited with a non-empty window; the linear throttle ramp
`floor(((usedRatio - threshold) / (1 - threshold)) * retryAfterMs)` when
throttling but not limited; and 0 when not throttling. -/
theorem rate_limiter_delay_formula (cfg : RateLimitConfig) (reqs : List Int) (now : Int)
    (hen : cfg.enabled = true) (hmax : 0 < cfg.maxRequests)
    (hth1 : cfg.throttleThreshold < 1) :
    (∀ (oldest : Int) (rest : List Int),
      cfg.maxRequests ≤ currentCount cfg reqs now →
      pruneOldRequests cfg reqs now = oldest :: rest →
      getDelayMs cfg reqs now = max 0 (oldest + (cfg.windowMs : Int) - now))
    ∧ (cfg.throttleThreshold ≤ usedRatio cfg reqs now →
        currentCount cfg reqs now < cfg.maxRequests →
        getDelayMs cfg reqs now =
          ⌊((usedRatio cfg reqs now - cfg.throttleThreshold) /
              (1 - cfg.throttleThreshold)) * (cfg.retryAfterMs : ℚ)⌋)
    ∧ (usedRatio cfg reqs now < cfg.throttleThreshold →
        getDelayMs cfg reqs now = 0) :=
  ⟨fun oldest rest hlim hpr => getDelayMs_limited cfg reqs now oldest rest hen hmax hth1 hlim hpr,
   fun hthr hnl => getDelayMs_throttle cfg reqs now hen hthr hnl,
   fun h => getDelayMs_not_throttling cfg reqs now hen h⟩

/-- Witness for C3: with `maxRequests = 10`, `windowMs = 100`,
`throttleThreshold = 1/2`, `retryAfterMs = 1000` at `now = 1000`:
a full window of requests at time 950 waits 50ms for the oldest to
expire; nine requests give the ramp delay 800ms; one request gives 0. -/
theorem rate_limiter_delay_formula_witness :
    getDelayMs ⟨true, 10, 100, 1/2, 1000, 3⟩ (List.replicate 10 950) 1000 = 50 ∧
    getDelayMs ⟨true, 10, 100, 1/2, 1000, 3⟩ (List.replicate 9 950) 1000 = 800 ∧
    getDelayMs ⟨true, 10, 100, 1/2, 1000, 3⟩ [950] 1000 = 0 := by
  have hth : ((1 : ℚ)/2) < 1 := by norm_num
  refine ⟨?_, ?_, ?_⟩
  · have h := (rate_limiter_delay_formula ⟨true, 10, 100, 1/2, 1000, 3⟩
        (List.replicate 10 950) 1000 rfl (by decide) hth).1 950 (List.replicate 9 950)
        (by decide) (by decide)
    rw [h]
    decide
  · have hcnt : currentCount ⟨true, 10, 100, 1/2, 1000, 3⟩ (List.replicate 9 950) 1000 = 9 := by
      decide
    have hratio : usedRatio ⟨true, 10, 100, 1/2, 1000, 3⟩ (List.replicate 9 950) 1000 =
        9/10 := by
      rw [usedRatio, hcnt]
      norm_num
    have h := (rate_limiter_delay_formula ⟨true, 10, 100, 1/2, 1000, 3⟩
        (List.replicate 9 950) 1000 rfl (by decide) hth).2.1
        (by rw [hratio]; norm_num) (by decide)
    rw [h, hratio]
    have hval : ((9 : ℚ)/10 - 1/2) / (1 - 1/2) * (((1000 : Nat)) : ℚ) = ((800 : Int) : ℚ) := by
      norm_num
    rw [show ((⟨true, 10, 100, 1/2, 1000, 3⟩ : RateLimitConfig).throttleThreshold) =
          (1 : ℚ)/2 from rfl]
    rw [show (((⟨true, 10, 100, 1/2, 1000, 3⟩ : RateLimitConfig).retryAfterMs : ℚ)) =
          (((1000 : Nat)) : ℚ) from rfl]
    rw [hval, Int.floor_intCast]
  · have hcnt : currentCount ⟨true, 10, 100, 1/2, 1000, 3⟩ [950] 1000 = 1 := by decide
    have hratio : usedRatio ⟨true, 10, 100, 1/2, 1000, 3⟩ [950] 1000 = 1/10 := by
      rw [usedRatio, hcnt]
      norm_num
    exact (rate_limiter_delay_formula ⟨true, 10, 100, 1/2, 1000, 3⟩ [950] 1000
      rfl (by decide) hth).2.2 (by rw [hratio]; norm_num)

/-- Counterexample to C7 as stated: with the same enabled configuration
and the same `now`, a state holding 10 requests (limited, oldest about to
expire) gets delay 0, strictly smaller than the 800ms ramp delay of a
state holding only 9 requests — so the delay is not monotone in
`currentCount` up to and including `maxRequests`. -/
theorem rate_limiter_monotonicity_counterexample :
    currentCount ⟨true, 10, 100, 1/2, 1000, 3⟩ (List.replicate 9 999) 1000 = 9 ∧
    currentCount ⟨true, 10, 100, 1/2, 1000, 3⟩ (List.replicate 10 900) 1000 = 10 ∧
    getDelayMs ⟨true, 10, 100, 1/2, 1000, 3⟩ (List.replicate 10 900) 1000 <
      getDelayMs ⟨true, 10, 100, 1/2, 1000, 3⟩ (List.replicate 9 999) 1000 := by
  have h10 : getDelayMs ⟨true, 10, 100, 1/2, 1000, 3⟩ (List.replicate 10 900) 1000 =
      max 0 (900 + ((100 : Nat) : Int) - 1000) :=
    getDelayMs_limited ⟨true, 10, 100, 1/2, 1000, 3⟩ (List.replicate 10 900) 1000
      900 (List.replicate 9 900) rfl (by decide) (by norm_num) (by decide) (by decide)
  have hcnt : currentCount ⟨true, 10, 100, 1/2, 1000, 3⟩ (List.replicate 9 999) 1000 = 9 := by
    decide
  have hratio : usedRatio ⟨true, 10, 100, 1/2, 1000, 3⟩ (List.replicate 9 999) 1000 = 9/10 := by
    rw [usedRatio, hcnt]
    norm_num
  have h9 : getDelayMs ⟨true, 10, 100, 1/2, 1000, 3⟩ (List.replicate 9 999) 1000 = 800 := by
    have h := getDelayMs_throttle ⟨true, 10, 100, 1/2, 1000, 3⟩ (List.replicate 9 999) 1000
      rfl (by rw [hratio]; norm_num) (by decide)
    rw [h, hratio]
    rw [show ((⟨true, 10, 100, 1/2, 1000, 3⟩ : RateLimitConfig).throttleThreshold) =
          (1 : ℚ)/2 from rfl]
    rw [show (((⟨true, 10, 100, 1/2, 1000, 3⟩ : RateLimitConfig).retryAfterMs : ℚ)) =
          (((1000 : Nat)) : ℚ) from rfl]
    rw [show ((9 : ℚ)/10 - 1/2) / (1 - 1/2) * (((1000 : Nat)) : ℚ) = ((800 : Int) : ℚ) from by
        norm_num]
    exact Int.floor_intCast 800
  refine ⟨hcnt, by decide, ?_⟩
  rw [h9, h10]
  decide

/-- C7 (amended): for a fixed enabled configuration and fixed `now`,
`getDelayMs` is monotone non-decreasing in `currentCount` over the range
strictly below `maxRequests` (the throttle ramp); at `maxRequests` the
delay switches to the oldest-timestamp wait and monotonicity in the count
alone no longer holds. -/
theorem rate_limiter_throttle_delay_monotone (cfg : RateLimitConfig)
    (r1 r2 : List Int) (now : Int)
    (hen : cfg.enabled = true) (hmax : 0 < cfg.maxRequests)
    (hth1 : cfg.throttleThreshold < 1)
    (hc : currentCount cfg r1 now ≤ currentCount cfg r2 now)
    (hlt : currentCount cfg r2 now < cfg.maxRequests) :
    getDelayMs cfg r1 now ≤ getDelayMs cfg r2 now := by
  have hmaxQ : (0 : ℚ) < (cfg.maxRequests : ℚ) := by exact_mod_cast hmax
  have hr12 : usedRatio cfg r1 now ≤ usedRatio cfg r2 now := by
    unfold usedRatio
    exact div_le_div_of_nonneg_right (Nat.cast_le.mpr hc) hmaxQ.le
  have hden : (0 : ℚ) < 1 - cfg.throttleThreshold := by linarith
  by_cases h1 : cfg.throttleThreshold ≤ usedRatio cfg r1 now
  · have h2 : cfg.throttleThreshold ≤ usedRatio cfg r2 now := le_trans h1 hr12
    rw [getDelayMs_throttle cfg r1 now hen h1 (lt_of_le_of_lt hc hlt),
      getDelayMs_throttle cfg r2 now hen h2 hlt]
    apply Int.floor_le_floor
    apply mul_le_mul_of_nonneg_right _ (by positivity)
    exact (div_le_div_iff_of_pos_right hden).mpr (by linarith)
  · push_neg at h1
    rw [getDelayMs_not_throttling cfg r1 now hen h1]
    by_cases h2 : cfg.throttleThreshold ≤ usedRatio cfg r2 now
    · rw [getDelayMs_throttle cfg r2 now hen h2 hlt]
      apply Int.le_floor.mpr
      push_cast
      apply mul_nonneg (div_nonneg (by linarith) (by linarith)) (by positivity)
    · push_neg at h2
      rw [getDelayMs_not_throttling cfg r2 now hen h2]

/-- Witness for the amended C7: 8 versus 9 requests below the cap give
delays 600 ≤ 800. -/
theorem rate_limiter_throttle_delay_monotone_witness :
    getDelayMs ⟨true, 10, 100, 1/2, 1000, 3⟩ (List.replicate 8 999) 1000 ≤
      getDelayMs ⟨true, 10, 100, 1/2, 1000, 3⟩ (List.replicate 9 999) 1000 :=
  rate_limiter_throttle_delay_monotone ⟨true, 10, 100, 1/2, 1000, 3⟩
    (List.replicate 8 999) (List.replicate 9 999) 1000
    rfl (by decide) (by norm_num : (1 : ℚ)/2 < 1) (by decide) (by decide)

/-! ## Rate limiter: recording within a window -/

theorem recordAll_keeps_all (cfg : RateLimitConfig) (hen : cfg.enabled = true) :
    ∀ (ts acc : List Int) (t1 : Int),
      acc.head? = some t1 →
      (∀ t ∈ ts, t - t1 < (cfg.windowMs : Int)) →
      recordAll cfg acc ts = acc ++ ts := by
  intro ts
  induction ts with
  | nil =>
    intro acc t1 _ _
    simp [recordAll]
  | cons t ts' ih =>
    intro acc t1 hhead hspan
    obtain ⟨acc', rfl⟩ : ∃ acc', acc = t1 :: acc' := by
      cases acc with
      | nil => exact absurd hhead (by simp)
      | cons a0 acc' =>
        simp only [List.head?_cons, Option.some.injEq] at hhead
        exact ⟨acc', by rw [hhead]⟩
    have hpred : ¬(t1 < t - (cfg.windowMs : Int)) := by
      have := hspan t (by simp)
      omega
    have hprune : pruneOldRequests cfg (t1 :: acc') t = t1 :: acc' := by
      rw [pruneOldRequests, List.dropWhile_cons_of_neg (by simp [hpred])]
    have hstep : recordAll cfg (t1 :: acc') (t :: ts') =
        recordAll cfg ((t1 :: acc') ++ [t]) ts' := by
      simp [recordAll, recordRequest, hen, hprune]
    rw [hstep, ih ((t1 :: acc') ++ [t]) t1 (by simp)
      (fun u hu => hspan u (by simp [hu]))]
    simp

/-- C8: starting from a fresh enabled limiter, recording requests at times
`t1 :: rest`, all within less than `windowMs` of the first, prunes
nothing: observed immediately afterwards (while `now` is still within the
window of `t1`), `currentCount` equals the number of recorded requests
and `remaining = max(0, maxRequests - N)`; once every recorded request is
more than `windowMs` in the past, `currentCount` is 0. -/
theorem rate_limiter_recording_counts (cfg : RateLimitConfig) (t1 : Int) (rest : List Int)
    (now now2 : Int)
    (hen : cfg.enabled = true)
    (hspan : ∀ t ∈ rest, t - t1 < (cfg.windowMs : Int))
    (hnow : now - t1 < (cfg.windowMs : Int)) :
    (currentCount cfg (recordAll cfg [] (t1 :: rest)) now = rest.length + 1
      ∧ remaining cfg (recordAll cfg [] (t1 :: rest)) now =
          max 0 ((cfg.maxRequests : Int) - ((rest.length + 1 : Nat) : Int)))
    ∧ ((∀ t ∈ t1 :: rest, (cfg.windowMs : Int) < now2 - t) →
        currentCount cfg (recordAll cfg [] (t1 :: rest)) now2 = 0) := by
  have hall : recordAll cfg [] (t1 :: rest) = t1 :: rest := by
    have h1 : recordAll cfg [] (t1 :: rest) = recordAll cfg [t1] rest := by
      simp [recordAll, recordRequest, hen, pruneOldRequests]
    rw [h1, recordAll_keeps_all cfg hen rest [t1] t1 (by simp) hspan]
    simp
  have hcnt : currentCount cfg (t1 :: rest) now = rest.length + 1 := by
    rw [currentCount, pruneOldRequests, List.dropWhile_cons_of_neg (by simp; omega)]
    simp
  refine ⟨⟨by rw [hall, hcnt], ?_⟩, ?_⟩
  · rw [remaining, hall, hcnt]
  · intro hfar
    rw [hall, currentCount, pruneOldRequests, List.dropWhile_eq_nil_iff.mpr ?_]
    · rfl
    · intro x hx
      have := hfar x hx
      simp
      omega

/-- Witness for C8 with three recordings at times 0, 10, 20 in a 100ms
window, observed at `now = 50` and again at `now2 = 200`. -/
theorem rate_limiter_recording_counts_witness :
    (currentCount ⟨true, 10, 100, 1/2, 1000, 3⟩
        (recordAll ⟨true, 10, 100, 1/2, 1000, 3⟩ [] [0, 10, 20]) 50 = 3
      ∧ remaining ⟨true, 10, 100, 1/2, 1000, 3⟩
          (recordAll ⟨true, 10, 100, 1/2, 1000, 3⟩ [] [0, 10, 20]) 50 = 7)
    ∧ currentCount ⟨true, 10, 100, 1/2, 1000, 3⟩
        (recordAll ⟨true, 10, 100, 1/2, 1000, 3⟩ [] [0, 10, 20]) 200 = 0 := by
  have h := rate_limiter_recording_counts ⟨true, 10, 100, 1/2, 1000, 3⟩ 0 [10, 20] 50 200
    rfl (by decide) (by decide)
  exact ⟨⟨h.1.1, h.1.2⟩, h.2 (by decide)⟩

end SuperOps
